import Mathlib

/-!
Verification of the excel-viewer repository: a shallow embedding of the two
viewer components in src/src/components/SimpleExcelViewer.tsx (the grid-table
component `SimpleExcelViewer` and the alternative `ExcelViewer` component that
feeds the Luckysheet widget), together with theorems settling the spec claims.

JavaScript values relevant to the code are embedded as `JSValue`; machine
floats only ever appear here as the integers the claims mention, so numbers
are carried as `Int`.  The output of the external `xlsx` library (an opaque
collaborator per the spec) is embedded as structured records (`RawCell`,
`RawWorksheet`): the library's binary decoding is outside the repository, and
this code only reads the already-structured result.
-/

namespace ExcelViewer

/-- A JavaScript primitive value as it flows through the viewer: the parsed
cell values are strings, numbers or booleans, and absent fields are
`null`/`undefined`. -/
inductive JSValue where
  | str (s : String)
  | num (n : Int)
  | boolean (b : Bool)
  | null
  | undefined
  deriving DecidableEq, Repr

/-- JavaScript truthiness for the embedded values: the empty string, the
number 0, `false`, `null` and `undefined` are falsy. -/
def JSValue.truthy : JSValue → Bool
  | .str s => s ≠ ""
  | .num n => n ≠ 0
  | .boolean b => b
  | .null => false
  | .undefined => false

/-- The JavaScript `a || b` operator on embedded values. -/
def jsOr (a b : JSValue) : JSValue :=
  if a.truthy then a else b

/-- JavaScript `String(x)` on the embedded values. -/
def jsToString : JSValue → String
  | .str s => s
  | .num n => toString n
  | .boolean b => if b then "true" else "false"
  | .null => "null"
  | .undefined => "undefined"

/-- Truthiness of a JS field that is either a string or absent. -/
def strTruthy : Option String → Bool
  | some s => s ≠ ""
  | none => false

/-- Truthiness of a JS field that is either a number or absent. -/
def natTruthy : Option Nat → Bool
  | some n => n ≠ 0
  | none => false

/-- The JavaScript `a || dflt` idiom on an optional string field
(`alignment.horizontal || 'left'`). -/
def jsOrStr (a : Option String) (dflt : String) : String :=
  match a with
  | some s => if s = "" then dflt else s
  | none => dflt

/-- A color object of the xlsx style model: `{ rgb?, indexed? }`. -/
structure JSColor where
  rgb : Option String
  indexed : Option Nat
  deriving DecidableEq, Repr

/-- The `fill` part of an xlsx style object. -/
structure FillStyle where
  bgColor : Option JSColor
  deriving DecidableEq, Repr

/-- The `font` part of an xlsx style object. -/
structure FontStyle where
  color : Option JSColor
  bold : Option Bool
  italic : Option Bool
  sz : Option Nat
  name : Option String
  deriving DecidableEq, Repr

/-- The `alignment` part of an xlsx style object. -/
structure AlignStyle where
  horizontal : Option String
  vertical : Option String
  deriving DecidableEq, Repr

/-- An xlsx style object `cell.s` (the border object is opaque to the viewer,
which forwards it unread, so it is carried as an opaque token). -/
structure CellStyle where
  fill : Option FillStyle
  font : Option FontStyle
  alignment : Option AlignStyle
  border : Option String
  deriving DecidableEq, Repr

/-- A parsed cell as delivered by the xlsx library: formatted text `w`,
raw value `v`, formula `f`, type tag `t` and style `s`, each possibly
absent. -/
structure RawCell where
  w : Option String
  v : Option JSValue
  f : Option String
  t : Option String
  s : Option CellStyle
  deriving DecidableEq, Repr

/-- The alignment record the viewer derives:
`{ horizontal: ... || 'left', vertical: ... || 'middle' }`. -/
structure CellAlign where
  horizontal : String
  vertical : String
  deriving DecidableEq, Repr

/-- The viewer's cell-presentation record, one entry of the sheet matrix.
The `debugInfo` field of the source (a console-debugging string built with
`JSON.stringify`) is read by nothing and is omitted. -/
structure Cell where
  value : JSValue
  formula : Option String
  type : String
  style : Option CellStyle
  backgroundColor : Option String
  textColor : Option String
  isBold : Bool
  isItalic : Bool
  fontSize : Option String
  fontFamily : Option String
  alignment : Option CellAlign
  border : Option String
  originalCell : Option RawCell
  deriving DecidableEq, Repr

/-- The indexed-color table of `getCellBackgroundColor`; indices missing from
the table yield `undefined`, which `|| null` turns into `null`. -/
def indexedColors (i : Nat) : Option String :=
  if i = 64 then some "#000000"
  else if i = 9 then some "#ffffff"
  else if i = 10 then some "#ff0000"
  else if i = 11 then some "#00ff00"
  else if i = 12 then some "#0000ff"
  else if i = 13 then some "#ffff00"
  else if i = 14 then some "#ff00ff"
  else if i = 15 then some "#00ffff"
  else if i = 43 then some "#92d050"
  else if i = 44 then some "#00b0f0"
  else if i = 45 then some "#0070c0"
  else if i = 46 then some "#002060"
  else none

/-- `getCellBackgroundColor`: reads `cell.s.fill.bgColor`; a truthy `rgb`
string wins (with the two alpha characters sliced off), otherwise a truthy
`indexed` number is looked up in the table, otherwise `null`. -/
def getCellBackgroundColor (cell : RawCell) : Option String :=
  match (cell.s.bind (·.fill)).bind (·.bgColor) with
  | some color =>
    if strTruthy color.rgb then some ("#" ++ (color.rgb.getD "").drop 2)
    else if natTruthy color.indexed then indexedColors (color.indexed.getD 0)
    else none
  | none => none

/-- `getCellTextColor`: reads `cell.s.font.color.rgb` only. -/
def getCellTextColor (cell : RawCell) : Option String :=
  match (cell.s.bind (·.font)).bind (·.color) with
  | some color =>
    if strTruthy color.rgb then some ("#" ++ (color.rgb.getD "").drop 2)
    else none
  | none => none

/-- `isCellBold`: the truthiness of `cell.s && cell.s.font && cell.s.font.bold`. -/
def isCellBold (cell : RawCell) : Bool :=
  ((cell.s.bind (·.font)).bind (·.bold)).getD false

/-- `isCellItalic`: the truthiness of `cell.s && cell.s.font && cell.s.font.italic`. -/
def isCellItalic (cell : RawCell) : Bool :=
  ((cell.s.bind (·.font)).bind (·.italic)).getD false

/-- `getCellFontSize`: a truthy `sz` yields the template string `sz + "px"`. -/
def getCellFontSize (cell : RawCell) : Option String :=
  match (cell.s.bind (·.font)).bind (·.sz) with
  | some n => if n ≠ 0 then some (toString n ++ "px") else none
  | none => none

/-- `getCellFontFamily`: a truthy `font.name` is returned as is. -/
def getCellFontFamily (cell : RawCell) : Option String :=
  match (cell.s.bind (·.font)).bind (·.name) with
  | some s => if s ≠ "" then some s else none
  | none => none

/-- `getCellAlignment`: when `cell.s.alignment` exists, defaults the two axes
with `|| 'left'` and `|| 'middle'`. -/
def getCellAlignment (cell : RawCell) : Option CellAlign :=
  match cell.s.bind (·.alignment) with
  | some al =>
    some { horizontal := jsOrStr al.horizontal "left",
           vertical := jsOrStr al.vertical "middle" }
  | none => none

/-- `getCellBorder`: forwards `cell.s.border` when present, else `null`. -/
def getCellBorder (cell : RawCell) : Option String :=
  cell.s.bind (·.border)

/-- An absent field of the xlsx cell read as a JS value (`undefined`). -/
def optStrVal : Option String → JSValue
  | some s => .str s
  | none => .undefined

/-- The cell record the `else` branches of `loadExcelFile` and
`handleCellChange` build: every presentation attribute absent, type `'n'`,
with the given value (`''` at load time, the typed text at edit time). -/
def emptyCell (v : JSValue) : Cell where
  value := v
  formula := none
  type := "n"
  style := none
  backgroundColor := none
  textColor := none
  isBold := false
  isItalic := false
  fontSize := none
  fontFamily := none
  alignment := none
  border := none
  originalCell := none

/-- The cell record `loadExcelFile` builds for a position present in the
worksheet: direct field lookups on the parsed cell, with the JavaScript
`||` chains of the source (`cell.w || cell.v || ''`, `cell.f || null`,
`cell.t || 'n'`, `cell.s || null`). -/
def extractCell (cell : RawCell) : Cell where
  value := jsOr (jsOr (optStrVal cell.w) (cell.v.getD JSValue.undefined)) (JSValue.str "")
  formula := match cell.f with
    | some f => if f = "" then none else some f
    | none => none
  type := match cell.t with
    | some t => if t = "" then "n" else t
    | none => "n"
  style := cell.s
  backgroundColor := getCellBackgroundColor cell
  textColor := getCellTextColor cell
  isBold := isCellBold cell
  isItalic := isCellItalic cell
  fontSize := getCellFontSize cell
  fontFamily := getCellFontFamily cell
  alignment := getCellAlignment cell
  border := getCellBorder cell
  originalCell := some cell

/-- The decoded form of an `A1:B2` style range reference, as
`XLSX.utils.decode_range` returns it: start/end row and column. -/
structure CellRange where
  sr : Nat
  sc : Nat
  er : Nat
  ec : Nat
  deriving DecidableEq, Repr

/-- The decoded default range `'A1:A1'` used when a worksheet has no
`!ref` key. -/
def defaultRange : CellRange := ⟨0, 0, 0, 0⟩

/-- A parsed worksheet as the viewer reads it: the decoded `!ref` range (if
any) and the mapping from cell addresses to parsed cells, as an association
list on (row, column) coordinates. -/
structure RawWorksheet where
  ref : Option CellRange
  cells : List ((Nat × Nat) × RawCell)
  deriving DecidableEq, Repr

/-- `worksheet[XLSX.utils.encode_cell({r, c})]`: address lookup. -/
def RawWorksheet.cellAt (ws : RawWorksheet) (r c : Nat) : Option RawCell :=
  match ws.cells.find? (fun p => p.1 == (r, c)) with
  | some p => some p.2
  | none => none

/-- A sheet entry of the viewer state: name plus the 2D cell matrix.  Rows
and cells sit under `Option` because JavaScript arrays may hold holes —
`handleCellChange` can write past the end of an array, leaving `undefined`
at the skipped indices.  (The `rawData` field of the source, an unused
second parse kept for debugging, is omitted.) -/
structure Sheet where
  name : String
  data : List (Option (List (Option Cell)))
  deriving DecidableEq, Repr

/-- Reading `a[i]` from a JavaScript array with holes: out of range and
holes both give `undefined`. -/
def jsGet {α : Type} (l : List (Option α)) (i : Nat) : Option α :=
  match l[i]? with
  | some x => x
  | none => none

/-- Writing `a[i] = x` to a JavaScript array: in range overwrites, past the
end extends the array to length `i + 1`, leaving holes in between. -/
def jsWrite {α : Type} (l : List (Option α)) (i : Nat) (x : α) : List (Option α) :=
  if i < l.length then l.set i (some x)
  else l ++ (List.replicate (i - l.length) none ++ [some x])

/-- The per-sheet body of `loadExcelFile`'s `map`: the matrix of
`range.e.r + 1` by `range.e.c + 1` cell records, present worksheet positions
extracted and absent ones defaulted. -/
def buildCellMatrix (ws : RawWorksheet) (rows cols : Nat) :
    List (Option (List (Option Cell))) :=
  (List.range rows).map (fun row =>
    some ((List.range cols).map (fun col =>
      some (match ws.cellAt row col with
        | some cell => extractCell cell
        | none => emptyCell (JSValue.str "")))))

/-- One sheet entry of `sheetsData`: dimensions from
`decode_range(worksheet['!ref'] || 'A1:A1')`. -/
def buildSheet (sheetName : String) (ws : RawWorksheet) : Sheet :=
  let range := ws.ref.getD defaultRange
  { name := sheetName, data := buildCellMatrix ws (range.er + 1) (range.ec + 1) }

/-- `workbook.SheetNames.map(...)`: one sheet entry per sheet name, in the
parser's order. -/
def loadSheets (wb : List (String × RawWorksheet)) : List Sheet :=
  wb.map (fun p => buildSheet p.1 p.2)

/-- The React state of the `SimpleExcelViewer` component. -/
structure ViewerState where
  sheets : List Sheet
  activeSheetIndex : Nat
  isLoading : Bool
  error : Option String
  showFormulas : Bool
  deriving DecidableEq, Repr

/-- The `useState` initial values. -/
def initialState : ViewerState :=
  { sheets := [], activeSheetIndex := 0, isLoading := false,
    error := none, showFormulas := false }

/-- The net state effect of `loadExcelFile`: the byte read and parse either
produce a structured workbook or throw with a message.  On success the
sheets are rebuilt, the active index reset and the error cleared; on an
exception the catch block records the message and the sheets are left
untouched; the finally block clears the loading flag on both paths. -/
def loadExcelFile (s : ViewerState)
    (input : Except String (List (String × RawWorksheet))) : ViewerState :=
  match input with
  | .ok wb =>
    { s with sheets := loadSheets wb, activeSheetIndex := 0,
             error := none, isLoading := false }
  | .error m =>
    { s with error := some ("Error loading Excel file: " ++ m),
             isLoading := false }

/-- `handleCellChange(rowIndex, colIndex, value)` on the active sheet:
a missing row becomes `[]`, an existing object cell is spread with the new
value, anything else becomes a fresh default record carrying the value. -/
def handleCellChange (sheets : List Sheet) (active r c : Nat) (v : String) :
    List Sheet :=
  match sheets[active]? with
  | none => sheets
  | some sh =>
    let row := (jsGet sh.data r).getD []
    let newCell :=
      match jsGet row c with
      | some existing => { existing with value := JSValue.str v }
      | none => emptyCell (JSValue.str v)
    sheets.set active { sh with data := jsWrite sh.data r (jsWrite row c newCell) }

/-- The grid cell access `activeSheet.data[rowIndex] &&
activeSheet.data[rowIndex][colIndex]` at a given sheet index. -/
def getCell (sheets : List Sheet) (a r c : Nat) : Option Cell :=
  match sheets[a]? with
  | some sh => jsGet ((jsGet sh.data r).getD []) c
  | none => none

/-- `maxRows = Math.max(activeSheet.data.length, 20)`. -/
def getMaxRows (sheet : Sheet) : Nat :=
  max sheet.data.length 20

/-- `row.length` as the render code reads it; loaded sheets never hold row
holes, so the `none` branch is unreachable on the states the grid renders. -/
def rowLength : Option (List (Option Cell)) → Nat
  | some row => row.length
  | none => 0

/-- `maxCols = Math.max(...activeSheet.data.map(row => row.length), 10)`. -/
def getMaxCols (sheet : Sheet) : Nat :=
  (sheet.data.map rowLength).foldl max 10

/-- `getCellDisplayValue`: with the toggle on and a truthy formula the text
is `'=' + formula`, otherwise `String(cell.value || '')`; a hole renders as
`String(undefined || '') = ''`. -/
def getCellDisplayValue (showFormulas : Bool) (cell : Option Cell) : String :=
  match cell with
  | none => ""
  | some cell =>
    if showFormulas && strTruthy cell.formula then "=" ++ cell.formula.getD ""
    else jsToString (jsOr cell.value (JSValue.str ""))

/-- The characters of `getColumnLabel`'s while loop.  The loop body prepends
`chr(65 + num % 26)` and continues with `floor(num / 26) - 1` until that
drops below zero, i.e. until `num < 26`; since the next `num` is strictly
smaller, `index + 1` steps of fuel always suffice, and the structural fuel
keeps the definition kernel-computable. -/
def colCharsFuel : Nat → Nat → List Char
  | 0, _ => []
  | fuel + 1, num =>
    if num < 26 then [Char.ofNat (65 + num % 26)]
    else colCharsFuel fuel (num / 26 - 1) ++ [Char.ofNat (65 + num % 26)]

/-- `getColumnLabel(index)`: the bijective base-26 column letters. -/
def getColumnLabel (index : Nat) : String :=
  String.mk (colCharsFuel (index + 1) index)

/-- The value a letter list denotes in bijective base 26 (`A` is 1), used to
invert `getColumnLabel`. -/
def colVal (cs : List Char) : Nat :=
  cs.foldl (fun acc c => acc * 26 + (c.toNat - 64)) 0

/-- The predicate the loaded-matrix claims quantify over: the record sits
somewhere in a matrix `loadExcelFile` built. -/
def cellOfLoadedMatrix (cell : Cell) : Prop :=
  ∃ sheetName ws r c,
    jsGet ((jsGet (buildSheet sheetName ws).data r).getD []) c = some cell

/-- The inner value record `convertToLuckysheetData` pushes. -/
structure LuckyVal where
  v : JSValue
  ctFa : String
  ctT : String
  m : String
  bg : Option String
  bl : Nat
  it : Nat
  ff : String
  fs : Nat
  fc : String
  ht : Nat
  vt : Nat
  deriving DecidableEq, Repr

/-- One record of the Luckysheet cell list: coordinates plus value record. -/
structure LuckyCell where
  r : Nat
  c : Nat
  v : LuckyVal
  deriving DecidableEq, Repr

/-- The inner `row.forEach((cell, colIndex) => ...)` of
`convertToLuckysheetData`, pushing one record per cell that is not `null`,
not `undefined` and not `''`. -/
def convertRowAux (rowIndex : Nat) : Nat → List JSValue → List LuckyCell
  | _, [] => []
  | colIndex, cell :: rest =>
    if cell = JSValue.null ∨ cell = JSValue.undefined ∨ cell = JSValue.str "" then
      convertRowAux rowIndex (colIndex + 1) rest
    else
      { r := rowIndex, c := colIndex,
        v := { v := cell, ctFa := "General", ctT := "g", m := jsToString cell,
               bg := none, bl := 0, it := 0, ff := "Arial", fs := 10,
               fc := "#000000", ht := 1, vt := 1 } }
        :: convertRowAux rowIndex (colIndex + 1) rest

/-- The outer `data.forEach((row, rowIndex) => ...)` of
`convertToLuckysheetData`. -/
def convertAux : Nat → List (List JSValue) → List LuckyCell
  | _, [] => []
  | rowIndex, row :: rest =>
    convertRowAux rowIndex 0 row ++ convertAux (rowIndex + 1) rest

/-- `convertToLuckysheetData(data)`. -/
def convertToLuckysheetData (data : List (List JSValue)) : List LuckyCell :=
  convertAux 0 data

/-- Modelled from the spec claim's words, for comparison with
`convertToLuckysheetData`: one record per non-null, non-undefined, non-empty
cell, in row-major order, carrying the coordinates, the raw value, its
string form as display text and the fixed default style fields. -/
def luckysheetDataSpec (data : List (List JSValue)) : List LuckyCell :=
  (data.enum.map (fun rp =>
    rp.2.enum.filterMap (fun cp =>
      if cp.2 ≠ JSValue.null ∧ cp.2 ≠ JSValue.undefined ∧ cp.2 ≠ JSValue.str "" then
        some { r := rp.1, c := cp.1,
               v := { v := cp.2, ctFa := "General", ctT := "g",
                      m := jsToString cp.2, bg := none, bl := 0, it := 0,
                      ff := "Arial", fs := 10, fc := "#000000",
                      ht := 1, vt := 1 } }
      else none))).flatten

/-- The user-interaction events of the component: a file load completing
(successfully or with an exception), a sheet-tab click, the formula toggle
and a cell edit. -/
inductive Event where
  | load (input : Except String (List (String × RawWorksheet)))
  | selectTab (i : Nat)
  | toggleFormulas
  | cellEdit (r c : Nat) (v : String)

/-- The state transition each event performs. -/
def step (s : ViewerState) : Event → ViewerState
  | .load input => loadExcelFile s input
  | .selectTab i => { s with activeSheetIndex := i }
  | .toggleFormulas => { s with showFormulas := !s.showFormulas }
  | .cellEdit r c v =>
    { s with sheets := handleCellChange s.sheets s.activeSheetIndex r c v }

/-- Which events the rendered UI can actually emit in a state: a sheet tab
exists only for an index below the sheet count (the tabs are rendered by
mapping over `sheets`). -/
def validEvent (s : ViewerState) : Event → Prop
  | .selectTab i => i < s.sheets.length
  | _ => True

/-- The active-index invariant: whenever sheets exist, the active index is
in range. -/
def activeIndexInv (s : ViewerState) : Prop :=
  s.sheets ≠ [] → s.activeSheetIndex < s.sheets.length

/-! ## Helper lemmas about the JavaScript array model -/

theorem jsGet_nil {α : Type} (i : Nat) : jsGet ([] : List (Option α)) i = none := by
  unfold jsGet
  rw [List.getElem?_eq_none (by simp)]

theorem jsGet_jsWrite_self {α : Type} (l : List (Option α)) (i : Nat) (x : α) :
    jsGet (jsWrite l i x) i = some x := by
  unfold jsWrite jsGet
  by_cases h : i < l.length
  · rw [if_pos h, List.getElem?_set_eq_of_lt _ h]
  · rw [if_neg h,
      List.getElem?_append_right (Nat.le_of_not_lt h),
      List.getElem?_append_right (by simp [List.length_replicate])]
    simp only [List.length_replicate]
    have hz : i - l.length - (i - l.length) = 0 := by omega
    rw [hz]
    rfl

theorem jsGet_jsWrite_ne {α : Type} (l : List (Option α)) (i j : Nat) (x : α)
    (h : j ≠ i) : jsGet (jsWrite l i x) j = jsGet l j := by
  unfold jsWrite jsGet
  by_cases hi : i < l.length
  · rw [if_pos hi, List.getElem?_set_ne (fun hh => h hh.symm)]
  · rw [if_neg hi]
    by_cases hj : j < l.length
    · rw [List.getElem?_append_left hj]
    · rw [List.getElem?_append_right (Nat.le_of_not_lt hj),
        List.getElem?_eq_none (Nat.le_of_not_lt hj)]
      by_cases hd : j - l.length < i - l.length
      · rw [List.getElem?_append_left (by simpa [List.length_replicate] using hd),
          List.getElem?_replicate, if_pos hd]
      · rw [List.getElem?_append_right (by simp [List.length_replicate]; omega),
          List.getElem?_eq_none (by simp [List.length_replicate]; omega)]

theorem jsWrite_length {α : Type} (l : List (Option α)) (i : Nat) (x : α) :
    (jsWrite l i x).length = max l.length (i + 1) := by
  unfold jsWrite
  by_cases h : i < l.length
  · rw [if_pos h, List.length_set]; omega
  · rw [if_neg h]; simp [List.length_append, List.length_replicate]; omega

/-! ## Helper lemmas about folds of `max` -/

theorem le_foldl_max (l : List Nat) (a : Nat) : a ≤ l.foldl max a := by
  induction l generalizing a with
  | nil => simp
  | cons x xs ih => exact le_trans (le_max_left a x) (ih (max a x))

theorem foldl_max_replicate (n a b : Nat) (h : 0 < n) :
    List.foldl max a (List.replicate n b) = max a b := by
  induction n generalizing a with
  | zero => omega
  | succ n ih =>
    rw [List.replicate_succ, List.foldl_cons]
    cases Nat.eq_zero_or_pos n with
    | inl h0 => subst h0; simp
    | inr hp => rw [ih _ hp, Nat.max_assoc, Nat.max_self]

/-! ## Structure of the loaded cell matrix -/

theorem buildCellMatrix_length (ws : RawWorksheet) (rows cols : Nat) :
    (buildCellMatrix ws rows cols).length = rows := by
  simp [buildCellMatrix]

theorem rowLength_some (row : List (Option Cell)) : rowLength (some row) = row.length := rfl

theorem buildSheet_data (sheetName : String) (ws : RawWorksheet) :
    (buildSheet sheetName ws).data =
      buildCellMatrix ws ((ws.ref.getD defaultRange).er + 1)
        ((ws.ref.getD defaultRange).ec + 1) := rfl

theorem buildCellMatrix_row (ws : RawWorksheet) (rows cols r : Nat) (hr : r < rows) :
    (buildCellMatrix ws rows cols)[r]? =
      some (some ((List.range cols).map (fun col =>
        some (match ws.cellAt r col with
          | some cell => extractCell cell
          | none => emptyCell (JSValue.str ""))))) := by
  unfold buildCellMatrix
  rw [List.getElem?_map, List.getElem?_range hr]
  rfl

theorem getCell_buildSheet (sheetName : String) (ws : RawWorksheet) (r c : Nat) :
    jsGet ((jsGet (buildSheet sheetName ws).data r).getD []) c =
      if r < (ws.ref.getD defaultRange).er + 1 ∧ c < (ws.ref.getD defaultRange).ec + 1 then
        some (match ws.cellAt r c with
          | some cell => extractCell cell
          | none => emptyCell (JSValue.str ""))
      else none := by
  unfold buildSheet
  by_cases hr : r < (ws.ref.getD defaultRange).er + 1
  · rw [show jsGet (buildCellMatrix ws ((ws.ref.getD defaultRange).er + 1)
        ((ws.ref.getD defaultRange).ec + 1)) r =
        some ((List.range ((ws.ref.getD defaultRange).ec + 1)).map (fun col =>
          some (match ws.cellAt r col with
            | some cell => extractCell cell
            | none => emptyCell (JSValue.str "")))) by
      unfold jsGet
      rw [buildCellMatrix_row ws _ _ r hr]]
    by_cases hc : c < (ws.ref.getD defaultRange).ec + 1
    · rw [if_pos ⟨hr, hc⟩]
      unfold jsGet
      rw [Option.getD_some, List.getElem?_map, List.getElem?_range hc]
      rfl
    · rw [if_neg (by tauto)]
      unfold jsGet
      rw [Option.getD_some, List.getElem?_eq_none (by simp; omega)]
  · rw [if_neg (by tauto)]
    rw [show jsGet (buildCellMatrix ws ((ws.ref.getD defaultRange).er + 1)
        ((ws.ref.getD defaultRange).ec + 1)) r = none by
      unfold jsGet
      rw [List.getElem?_eq_none (by rw [buildCellMatrix_length]; omega)]]
    rw [Option.getD_none, jsGet_nil]

/-! ## Shape of loaded cell values -/

theorem jsOr_empty_shape (x : JSValue) :
    (jsOr x (JSValue.str "")).truthy = true ∨ jsOr x (JSValue.str "") = JSValue.str "" := by
  unfold jsOr
  by_cases h : x.truthy
  · left; simp [h]
  · right; simp [h]

theorem cellOfLoadedMatrix_value (cell : Cell) (h : cellOfLoadedMatrix cell) :
    cell.value.truthy = true ∨ cell.value = JSValue.str "" := by
  obtain ⟨sheetName, ws, r, c, hc⟩ := h
  rw [getCell_buildSheet] at hc
  by_cases hin : r < (ws.ref.getD defaultRange).er + 1 ∧
      c < (ws.ref.getD defaultRange).ec + 1
  · rw [if_pos hin] at hc
    cases hcell : ws.cellAt r c with
    | some raw =>
      rw [hcell] at hc
      have : cell = extractCell raw := by exact Option.some_injective _ hc.symm
      subst this
      exact jsOr_empty_shape _
    | none =>
      rw [hcell] at hc
      have : cell = emptyCell (JSValue.str "") := by exact Option.some_injective _ hc.symm
      subst this
      right; rfl
  · rw [if_neg hin] at hc
    exact absurd hc (by simp)

theorem jsToString_jsOr_empty (x : JSValue)
    (h : x.truthy = true ∨ x = JSValue.str "") :
    jsToString (jsOr x (JSValue.str "")) = jsToString x := by
  unfold jsOr
  cases h with
  | inl h => rw [if_pos h]
  | inr h => subst h; rfl

theorem getCellDisplayValue_some (sf : Bool) (cell : Cell) :
    getCellDisplayValue sf (some cell) =
      if sf && strTruthy cell.formula then "=" ++ cell.formula.getD ""
      else jsToString (jsOr cell.value (JSValue.str "")) := rfl

/-! ## Helper lemmas about the column-label conversion -/

theorem colChar_toNat : ∀ k, k < 26 → (Char.ofNat (65 + k)).toNat = 65 + k := by
  decide

theorem colChar_upper :
    ∀ k, k < 26 → 'A' ≤ Char.ofNat (65 + k) ∧ Char.ofNat (65 + k) ≤ 'Z' := by
  decide

theorem colVal_append_singleton (cs : List Char) (c : Char) :
    colVal (cs ++ [c]) = colVal cs * 26 + (c.toNat - 64) := by
  unfold colVal
  rw [List.foldl_append]
  rfl

theorem colVal_colCharsFuel (fuel num : Nat) (h : num < fuel) :
    colVal (colCharsFuel fuel num) = num + 1 := by
  induction fuel generalizing num with
  | zero => omega
  | succ fuel ih =>
    by_cases h26 : num < 26
    · show colVal (if num < 26 then _ else _) = num + 1
      rw [if_pos h26]
      unfold colVal
      rw [List.foldl_cons, List.foldl_nil, colChar_toNat (num % 26) (Nat.mod_lt _ (by omega))]
      omega
    · show colVal (if num < 26 then _ else _) = num + 1
      rw [if_neg h26, colVal_append_singleton]
      have hlt : num / 26 < num := Nat.div_lt_self (by omega) (by omega)
      rw [ih (num / 26 - 1) (by omega)]
      rw [colChar_toNat (num % 26) (Nat.mod_lt _ (by omega))]
      omega

theorem colCharsFuel_ne_nil (fuel num : Nat) (h : num < fuel) :
    colCharsFuel fuel num ≠ [] := by
  cases fuel with
  | zero => omega
  | succ fuel =>
    show (if num < 26 then _ else _) ≠ []
    by_cases h26 : num < 26
    · rw [if_pos h26]; simp
    · rw [if_neg h26]; simp

theorem colCharsFuel_upper (fuel num : Nat) (c : Char)
    (hc : c ∈ colCharsFuel fuel num) : 'A' ≤ c ∧ c ≤ 'Z' := by
  induction fuel generalizing num with
  | zero => simp [colCharsFuel] at hc
  | succ fuel ih =>
    rw [show colCharsFuel (fuel + 1) num = if num < 26 then [Char.ofNat (65 + num % 26)]
        else colCharsFuel fuel (num / 26 - 1) ++ [Char.ofNat (65 + num % 26)] from rfl] at hc
    by_cases h26 : num < 26
    · rw [if_pos h26] at hc
      rw [List.mem_singleton] at hc
      subst hc
      exact colChar_upper (num % 26) (Nat.mod_lt _ (by omega))
    · rw [if_neg h26] at hc
      rcases List.mem_append.mp hc with h1 | h2
      · exact ih _ h1
      · rw [List.mem_singleton] at h2
        subst h2
        exact colChar_upper (num % 26) (Nat.mod_lt _ (by omega))

/-! ## Helper lemmas about the Luckysheet conversion -/

theorem convertRowAux_eq (ri : Nat) (row : List JSValue) (ci : Nat) :
    convertRowAux ri ci row =
      (List.enumFrom ci row).filterMap (fun cp =>
        if cp.2 ≠ JSValue.null ∧ cp.2 ≠ JSValue.undefined ∧ cp.2 ≠ JSValue.str "" then
          some { r := ri, c := cp.1,
                 v := { v := cp.2, ctFa := "General", ctT := "g",
                        m := jsToString cp.2, bg := none, bl := 0, it := 0,
                        ff := "Arial", fs := 10, fc := "#000000",
                        ht := 1, vt := 1 } }
        else none) := by
  induction row generalizing ci with
  | nil => rfl
  | cons x xs ih =>
    show (if x = JSValue.null ∨ x = JSValue.undefined ∨ x = JSValue.str "" then _ else _) = _
    rw [List.enumFrom]
    by_cases hx : x = JSValue.null ∨ x = JSValue.undefined ∨ x = JSValue.str ""
    · rw [if_pos hx, List.filterMap_cons]
      have hne : ¬(x ≠ JSValue.null ∧ x ≠ JSValue.undefined ∧ x ≠ JSValue.str "") := by
        tauto
      rw [if_neg hne]
      exact ih (ci + 1)
    · rw [if_neg hx, List.filterMap_cons]
      have : x ≠ JSValue.null ∧ x ≠ JSValue.undefined ∧ x ≠ JSValue.str "" := by tauto
      rw [if_pos this]
      rw [ih (ci + 1)]

theorem convertAux_eq (data : List (List JSValue)) (ri : Nat) :
    convertAux ri data =
      ((List.enumFrom ri data).map (fun rp =>
        rp.2.enum.filterMap (fun cp =>
          if cp.2 ≠ JSValue.null ∧ cp.2 ≠ JSValue.undefined ∧ cp.2 ≠ JSValue.str "" then
            some { r := rp.1, c := cp.1,
                   v := { v := cp.2, ctFa := "General", ctT := "g",
                          m := jsToString cp.2, bg := none, bl := 0, it := 0,
                          ff := "Arial", fs := 10, fc := "#000000",
                          ht := 1, vt := 1 } }
          else none))).flatten := by
  induction data generalizing ri with
  | nil => rfl
  | cons row rest ih =>
    show convertRowAux ri 0 row ++ convertAux (ri + 1) rest = _
    rw [List.enumFrom, List.map_cons, List.flatten_cons, ih (ri + 1),
      convertRowAux_eq ri row 0, List.enum_eq_enumFrom]

/-! ## Helper lemmas about the edit operation and the state machine -/

theorem handleCellChange_length (sheets : List Sheet) (a r c : Nat) (v : String) :
    (handleCellChange sheets a r c v).length = sheets.length := by
  unfold handleCellChange
  cases hs : sheets[a]? with
  | none => rfl
  | some sh => simp [List.length_set]

/-! ## Claim theorems -/

/-- C3: when the byte read or parse throws with message `m`, the load
operation sets the error state to the single string
`"Error loading Excel file: " + m`, leaves the sheets state untouched and
clears the loading flag; when the input parses, the error state is `none`
at the end of the load. -/
theorem loadExcelFile_error_handling (s : ViewerState) (m : String)
    (wb : List (String × RawWorksheet)) :
    (loadExcelFile s (Except.error m)).error =
      some ("Error loading Excel file: " ++ m) ∧
    (loadExcelFile s (Except.error m)).sheets = s.sheets ∧
    (loadExcelFile s (Except.error m)).isLoading = false ∧
    (loadExcelFile s (Except.ok wb)).error = none ∧
    (loadExcelFile s (Except.ok wb)).isLoading = false :=
  ⟨rfl, rfl, rfl, rfl, rfl⟩

/-- C5: `getColumnLabel` is the standard spreadsheet bijective base-26
letter label: 0 is `A`, 25 is `Z`, 26 is `AA`, 27 is `AB`, 701 is `ZZ`,
702 is `AAA`; it is injective on the naturals and always returns a
non-empty string of uppercase letters `A`-`Z`. -/
theorem getColumnLabel_spec :
    getColumnLabel 0 = "A" ∧ getColumnLabel 25 = "Z" ∧ getColumnLabel 26 = "AA" ∧
    getColumnLabel 27 = "AB" ∧ getColumnLabel 701 = "ZZ" ∧
    getColumnLabel 702 = "AAA" ∧
    Function.Injective getColumnLabel ∧
    ∀ n : Nat, getColumnLabel n ≠ "" ∧
      ∀ c, c ∈ (getColumnLabel n).data → 'A' ≤ c ∧ c ≤ 'Z' := by
  refine ⟨by decide, by decide, by decide, by decide, by decide, by decide, ?_, ?_⟩
  · intro a b hab
    have hdata : colCharsFuel (a + 1) a = colCharsFuel (b + 1) b :=
      congrArg String.data hab
    have ha := colVal_colCharsFuel (a + 1) a (by omega)
    have hb := colVal_colCharsFuel (b + 1) b (by omega)
    rw [hdata] at ha
    omega
  · intro n
    constructor
    · intro hcon
      exact colCharsFuel_ne_nil (n + 1) n (by omega) (congrArg String.data hcon)
    · intro c hc
      exact colCharsFuel_upper (n + 1) n c hc

/-- C5 witness: the theorem applied at column 0 and the letter `A`. -/
theorem getColumnLabel_spec_witness : 'A' ≤ 'A' ∧ 'A' ≤ 'Z' :=
  (getColumnLabel_spec.2.2.2.2.2.2.2 0).2 'A' (by decide)

/-- C6: the conversion to the Luckysheet input schema emits, in row-major
order, exactly one record per cell that is not null, not undefined and not
the empty string, each carrying the row and column index, the raw value,
its string form as display text and the fixed default style fields. -/
theorem convertToLuckysheetData_spec (data : List (List JSValue)) :
    convertToLuckysheetData data = luckysheetDataSpec data := by
  unfold convertToLuckysheetData luckysheetDataSpec
  rw [convertAux_eq, ← List.enum_eq_enumFrom]

/-- C10: the active-sheet index is in range whenever the sheets list is
non-empty: it holds initially, every successful load resets the index to 0,
a failed load changes neither field, a sheet tab always carries an in-range
index, and editing preserves the sheet count. -/
theorem activeIndex_invariant :
    activeIndexInv initialState ∧
    ∀ s e, activeIndexInv s → validEvent s e → activeIndexInv (step s e) := by
  constructor
  · intro h
    exact absurd rfl h
  · intro s e hinv hval
    cases e with
    | load input =>
      cases input with
      | ok wb =>
        intro hne
        exact List.length_pos.mpr hne
      | error m =>
        exact hinv
    | selectTab i =>
      intro _
      exact hval
    | toggleFormulas =>
      exact hinv
    | cellEdit r c v =>
      intro hne
      show s.activeSheetIndex <
        (handleCellChange s.sheets s.activeSheetIndex r c v).length
      rw [handleCellChange_length]
      apply hinv
      intro hcon
      apply hne
      show handleCellChange s.sheets s.activeSheetIndex r c v = []
      rw [hcon]
      rfl

/-- C10 witness: the invariant is preserved across a formula toggle from
the initial state. -/
theorem activeIndex_invariant_witness :
    activeIndexInv (step initialState Event.toggleFormulas) :=
  activeIndex_invariant.2 initialState Event.toggleFormulas
    (fun h => absurd rfl h) trivial

/-- C1: for a cell record of a loaded sheet matrix, the formula toggle on a
cell with a non-null, non-empty formula displays `"="` followed by the
formula text; with the toggle off the displayed text is the string form of
the stored value; and a cell with no formula displays the string form of
its value regardless of the toggle. -/
theorem getCellDisplayValue_toggle (cell : Cell) (sf : Bool)
    (h : cellOfLoadedMatrix cell) :
    (∀ f, cell.formula = some f → f ≠ "" →
      getCellDisplayValue true (some cell) = "=" ++ f) ∧
    getCellDisplayValue false (some cell) = jsToString cell.value ∧
    (cell.formula = none → getCellDisplayValue sf (some cell) = jsToString cell.value) := by
  have hval := cellOfLoadedMatrix_value cell h
  refine ⟨?_, ?_, ?_⟩
  · intro f hf hfne
    rw [getCellDisplayValue_some, hf]
    simp only [strTruthy, Bool.true_and, Option.getD_some]
    rw [if_pos (by simpa using hfne)]
  · rw [getCellDisplayValue_some]
    simp only [Bool.false_and, if_false, Bool.false_eq_true]
    exact jsToString_jsOr_empty _ hval
  · intro hfn
    rw [getCellDisplayValue_some, hfn]
    simp only [strTruthy, Bool.and_false]
    rw [if_neg (by simp)]
    exact jsToString_jsOr_empty _ hval

/-- C1 witness: the theorem applied to the default record of a loaded 1x1
worksheet, with the toggle off. -/
theorem getCellDisplayValue_toggle_witness :
    cellOfLoadedMatrix (emptyCell (JSValue.str "")) ∧
    getCellDisplayValue false (some (emptyCell (JSValue.str ""))) =
      jsToString (emptyCell (JSValue.str "")).value := by
  have h : cellOfLoadedMatrix (emptyCell (JSValue.str "")) :=
    ⟨"S", { ref := none, cells := [] }, 0, 0, by decide⟩
  exact ⟨h, (getCellDisplayValue_toggle (emptyCell (JSValue.str "")) false h).2.1⟩

/-- C8 counterexample: a worksheet cell with raw value 0, no formatted
text and a formula yields a record whose value is falsy, yet with the
formula toggle on it displays the formula text, not the empty string; so a
falsy-valued record does not display as empty in every state. -/
theorem falsy_display_counterexample :
    (extractCell ⟨none, some (JSValue.num 0), some "A1+B1", some "n", none⟩).value.truthy = false ∧
    getCellDisplayValue true (some (extractCell ⟨none, some (JSValue.num 0), some "A1+B1", some "n", none⟩)) = "=A1+B1" ∧
    getCellDisplayValue true (some (extractCell ⟨none, some (JSValue.num 0), some "A1+B1", some "n", none⟩)) ≠ "" := by
  decide

/-- C8 amended: a worksheet cell whose raw value is the number 0 or the
boolean false and which has no formatted-text field is stored with the
empty string as value (the extraction chains candidates with JavaScript
or-expressions); and a record with a falsy value displays as the empty
string whenever the formula branch does not apply, i.e. when the toggle is
off or the record has no truthy formula. -/
theorem falsy_extraction_spec (rc : RawCell) (cell : Cell) (sf : Bool)
    (hw : rc.w = none)
    (hv : rc.v = some (JSValue.num 0) ∨ rc.v = some (JSValue.boolean false))
    (hcv : cell.value.truthy = false)
    (hsf : sf = false ∨ strTruthy cell.formula = false) :
    (extractCell rc).value = JSValue.str "" ∧
    getCellDisplayValue sf (some cell) = "" := by
  constructor
  · show jsOr (jsOr (optStrVal rc.w) (rc.v.getD JSValue.undefined)) (JSValue.str "") =
      JSValue.str ""
    rw [hw]
    rcases hv with hv | hv <;> rw [hv] <;> rfl
  · have hcond : (sf && strTruthy cell.formula) = false := by
      rcases hsf with h | h <;> simp [h]
    rw [getCellDisplayValue_some, hcond]
    rw [if_neg (by simp)]
    unfold jsOr
    rw [if_neg (by simp [hcv])]
    rfl

/-- C8 witness: the amended theorem applied to a raw cell holding the
number 0 and to the default empty record with the toggle off. -/
theorem falsy_extraction_spec_witness :
    (extractCell ⟨none, some (JSValue.num 0), none, none, none⟩).value = JSValue.str "" ∧
    getCellDisplayValue false (some (emptyCell (JSValue.str ""))) = "" :=
  falsy_extraction_spec ⟨none, some (JSValue.num 0), none, none, none⟩
    (emptyCell (JSValue.str "")) false rfl (Or.inl rfl) rfl (Or.inl rfl)

/-- C2: editing an existing cell of the active sheet stores the typed
string as that cell's value, keeps every other field of the record
(formula, type, style, colors, font, alignment, border) unchanged, leaves
every other cell of the active sheet unchanged, and leaves every other
sheet unchanged. -/
theorem handleCellChange_frame (sheets : List Sheet) (a r c : Nat) (v : String)
    (ex : Cell) (ha : a < sheets.length)
    (hex : getCell sheets a r c = some ex) :
    (∃ cNew, getCell (handleCellChange sheets a r c v) a r c = some cNew ∧
      cNew.value = JSValue.str v ∧ cNew.formula = ex.formula ∧
      cNew.type = ex.type ∧ cNew.style = ex.style ∧
      cNew.backgroundColor = ex.backgroundColor ∧ cNew.textColor = ex.textColor ∧
      cNew.isBold = ex.isBold ∧ cNew.isItalic = ex.isItalic ∧
      cNew.fontSize = ex.fontSize ∧ cNew.fontFamily = ex.fontFamily ∧
      cNew.alignment = ex.alignment ∧ cNew.border = ex.border) ∧
    (∀ r2 c2, ¬(r2 = r ∧ c2 = c) →
      getCell (handleCellChange sheets a r c v) a r2 c2 = getCell sheets a r2 c2) ∧
    (∀ a2, a2 ≠ a → (handleCellChange sheets a r c v)[a2]? = sheets[a2]?) ∧
    ((handleCellChange sheets a r c v)[a]?).map Sheet.name =
      (sheets[a]?).map Sheet.name := by
  obtain ⟨sh, hsh⟩ : ∃ sh, sheets[a]? = some sh :=
    ⟨sheets[a], List.getElem?_eq_getElem ha⟩
  simp only [getCell, hsh] at hex
  cases hrow : jsGet sh.data r with
  | none =>
    rw [hrow, Option.getD_none, jsGet_nil] at hex
    exact absurd hex (by simp)
  | some row =>
    rw [hrow, Option.getD_some] at hex
    have hH : handleCellChange sheets a r c v =
        sheets.set a { sh with data := jsWrite sh.data r (jsWrite row c { ex with value := JSValue.str v }) } := by
      simp only [handleCellChange, hsh, hrow, Option.getD_some, hex]
    refine ⟨⟨{ ex with value := JSValue.str v }, ?_, rfl, rfl, rfl, rfl, rfl,
      rfl, rfl, rfl, rfl, rfl, rfl, rfl⟩, ?_, ?_, ?_⟩
    · rw [hH]
      simp only [getCell, List.getElem?_set_eq_of_lt _ ha]
      rw [jsGet_jsWrite_self, Option.getD_some, jsGet_jsWrite_self]
    · intro r2 c2 hne
      rw [hH]
      simp only [getCell, List.getElem?_set_eq_of_lt _ ha, hsh]
      by_cases hr2 : r2 = r
      · subst hr2
        have hc2 : c2 ≠ c := fun hcc => hne ⟨rfl, hcc⟩
        rw [jsGet_jsWrite_self, Option.getD_some, hrow, Option.getD_some,
          jsGet_jsWrite_ne _ _ _ _ hc2]
      · rw [jsGet_jsWrite_ne _ _ _ _ hr2]
    · intro a2 ha2
      rw [hH, List.getElem?_set_ne (fun hh => ha2 hh.symm)]
    · rw [hH, List.getElem?_set_eq_of_lt _ ha, hsh]
      rfl

/-- C2 witness: the theorem applied to the single existing cell of a
loaded 1x1 worksheet. -/
theorem handleCellChange_frame_witness :
    0 < ([buildSheet "S" ⟨none, []⟩] : List Sheet).length ∧
    getCell [buildSheet "S" ⟨none, []⟩] 0 0 0 = some (emptyCell (JSValue.str "")) ∧
    ((handleCellChange [buildSheet "S" ⟨none, []⟩] 0 0 0 "x")[0]?).map Sheet.name =
      (([buildSheet "S" ⟨none, []⟩] : List Sheet)[0]?).map Sheet.name := by
  refine ⟨by decide, by decide, ?_⟩
  exact (handleCellChange_frame [buildSheet "S" ⟨none, []⟩] 0 0 0 "x"
    (emptyCell (JSValue.str "")) (by decide) (by decide)).2.2.2

/-- C9: editing is total over the padded grid: for any position, including
ones outside the parsed matrix, the edit leaves the sheet count unchanged,
the target position afterwards holds the existing record with the typed
value, or a fresh default record carrying the typed value when no record
existed, the target row exists afterwards, and the rendered grid always
pads to at least 20 rows and 10 columns. -/
theorem handleCellChange_total (sheets : List Sheet) (a r c : Nat) (v : String)
    (ha : a < sheets.length) :
    (handleCellChange sheets a r c v).length = sheets.length ∧
    getCell (handleCellChange sheets a r c v) a r c =
      some (match getCell sheets a r c with
        | some ex => { ex with value := JSValue.str v }
        | none => emptyCell (JSValue.str v)) ∧
    (∃ sh2 row2, (handleCellChange sheets a r c v)[a]? = some sh2 ∧
      jsGet sh2.data r = some row2) ∧
    (∀ sheet : Sheet, 20 ≤ getMaxRows sheet ∧ 10 ≤ getMaxCols sheet) := by
  obtain ⟨sh, hsh⟩ : ∃ sh, sheets[a]? = some sh :=
    ⟨sheets[a], List.getElem?_eq_getElem ha⟩
  have hget : getCell sheets a r c = jsGet ((jsGet sh.data r).getD []) c := by
    simp only [getCell, hsh]
  have hH : handleCellChange sheets a r c v =
      sheets.set a { sh with data := jsWrite sh.data r (jsWrite ((jsGet sh.data r).getD []) c (match jsGet ((jsGet sh.data r).getD []) c with | some existing => { existing with value := JSValue.str v } | none => emptyCell (JSValue.str v))) } := by
    simp only [handleCellChange, hsh]
  refine ⟨handleCellChange_length sheets a r c v, ?_, ?_, ?_⟩
  · rw [hH, hget]
    simp only [getCell, List.getElem?_set_eq_of_lt _ ha]
    rw [jsGet_jsWrite_self, Option.getD_some, jsGet_jsWrite_self]
  · refine ⟨{ sh with data := jsWrite sh.data r (jsWrite ((jsGet sh.data r).getD []) c (match jsGet ((jsGet sh.data r).getD []) c with | some existing => { existing with value := JSValue.str v } | none => emptyCell (JSValue.str v))) }, _, ?_, jsGet_jsWrite_self _ _ _⟩
    rw [hH, List.getElem?_set_eq_of_lt _ ha]
  · intro sheet
    exact ⟨le_max_right _ _, le_foldl_max _ _⟩

/-- C9 witness: the theorem applied to an edit far outside the 1x1 parsed
matrix, producing the fresh default record at the target position. -/
theorem handleCellChange_total_witness :
    0 < ([buildSheet "S" ⟨none, []⟩] : List Sheet).length ∧
    getCell (handleCellChange [buildSheet "S" ⟨none, []⟩] 0 5 3 "hi") 0 5 3 =
      some (emptyCell (JSValue.str "hi")) := by
  refine ⟨by decide, ?_⟩
  have h := (handleCellChange_total [buildSheet "S" ⟨none, []⟩] 0 5 3 "hi"
    (by decide)).2.1
  rw [h]
  decide

/-- C7: a loaded sheet matrix is rectangular and fully populated: for every
row index below the row count there is a row of exactly the column count,
and every position holds a record — worksheet positions get the record of
direct field lookups on the parsed cell, absent positions get the default
record with empty value, null formula, type `n` and no style attributes. -/
theorem buildSheet_matrix_spec (sheetName : String) (ws : RawWorksheet) :
    (buildSheet sheetName ws).data.length = (ws.ref.getD defaultRange).er + 1 ∧
    ∀ r, r < (ws.ref.getD defaultRange).er + 1 →
      ∃ row, (buildSheet sheetName ws).data[r]? = some (some row) ∧
        row.length = (ws.ref.getD defaultRange).ec + 1 ∧
        ∀ c, c < (ws.ref.getD defaultRange).ec + 1 →
          row[c]? = some (some (match ws.cellAt r c with
            | some cell => extractCell cell
            | none => emptyCell (JSValue.str ""))) := by
  constructor
  · exact buildCellMatrix_length ws _ _
  · intro r hr
    refine ⟨_, buildCellMatrix_row ws _ _ r hr, ?_, ?_⟩
    · rw [List.length_map, List.length_range]
    · intro c hc
      rw [List.getElem?_map, List.getElem?_range hc]
      rfl

/-- C7 witness: the theorem applied to an empty 1x1 worksheet at row 0. -/
theorem buildSheet_matrix_spec_witness :
    0 < (({ ref := none, cells := [] } : RawWorksheet).ref.getD defaultRange).er + 1 ∧
    (buildSheet "S" ⟨none, []⟩).data[0]? = some (some [some (emptyCell (JSValue.str ""))]) := by
  refine ⟨by decide, ?_⟩
  obtain ⟨row, h1, h2, h3⟩ := (buildSheet_matrix_spec "S" ⟨none, []⟩).2 0 (by decide)
  have h0 := h3 0 (by decide)
  have hrow : row = [some (emptyCell (JSValue.str ""))] := by
    cases row with
    | nil => exact absurd h2 (by decide)
    | cons x xs =>
      cases xs with
      | nil =>
        have : x = some (emptyCell (JSValue.str "")) := by
          simpa using h0
        rw [this]
      | cons y ys =>
        simp [defaultRange] at h2
  rw [hrow] at h1
  exact h1

/-- C4 counterexample: for a well-formed workbook whose only sheet has the
default 1x1 range, the sheet matrix has 1 row but the rendered grid shows
20 rows (and 10 columns), not the matrix's 1 row — the grid pads, so it
does not show exactly `range.e.r + 1` rows. -/
theorem grid_dimensions_counterexample :
    (buildSheet "Sheet1" ⟨none, []⟩).data.length = 1 ∧
    getMaxRows (buildSheet "Sheet1" ⟨none, []⟩) = 20 ∧
    getMaxCols (buildSheet "Sheet1" ⟨none, []⟩) = 10 ∧
    getMaxRows (buildSheet "Sheet1" ⟨none, []⟩) ≠
      (buildSheet "Sheet1" ⟨none, []⟩).data.length := by
  decide

/-- C4 amended: loading a well-formed workbook produces one sheet entry per
sheet name in the parser's order; each sheet's matrix has exactly
`range.e.r + 1` rows and `range.e.c + 1` columns (the declared range,
defaulting to 1x1 when absent); and the rendered grid for that sheet shows
`max (range.e.r + 1) 20` rows and `max (range.e.c + 1) 10` columns. -/
theorem loadSheets_dimensions (wb : List (String × RawWorksheet)) :
    (loadSheets wb).length = wb.length ∧
    ∀ i (h : i < wb.length),
      ∃ sheet, (loadSheets wb)[i]? = some sheet ∧
        sheet.name = (wb.get ⟨i, h⟩).1 ∧
        sheet.data.length = ((wb.get ⟨i, h⟩).2.ref.getD defaultRange).er + 1 ∧
        (∀ orow ∈ sheet.data, ∃ row, orow = some row ∧
          row.length = ((wb.get ⟨i, h⟩).2.ref.getD defaultRange).ec + 1) ∧
        getMaxRows sheet = max (((wb.get ⟨i, h⟩).2.ref.getD defaultRange).er + 1) 20 ∧
        getMaxCols sheet = max (((wb.get ⟨i, h⟩).2.ref.getD defaultRange).ec + 1) 10 := by
  constructor
  · simp [loadSheets]
  · intro i h
    refine ⟨buildSheet (wb.get ⟨i, h⟩).1 (wb.get ⟨i, h⟩).2, ?_, rfl, ?_, ?_, ?_, ?_⟩
    · unfold loadSheets
      rw [List.getElem?_map, List.getElem?_eq_getElem h]
      rfl
    · rw [buildSheet_data, buildCellMatrix_length]
    · intro orow ho
      rw [buildSheet_data] at ho
      unfold buildCellMatrix at ho
      rw [List.mem_map] at ho
      obtain ⟨rr, _, hbe⟩ := ho
      exact ⟨_, hbe.symm, by rw [List.length_map, List.length_range]⟩
    · unfold getMaxRows
      rw [buildSheet_data, buildCellMatrix_length]
    · unfold getMaxCols
      have hmap : (buildSheet (wb.get ⟨i, h⟩).1 (wb.get ⟨i, h⟩).2).data.map rowLength =
          List.replicate (((wb.get ⟨i, h⟩).2.ref.getD defaultRange).er + 1)
            (((wb.get ⟨i, h⟩).2.ref.getD defaultRange).ec + 1) := by
        rw [List.eq_replicate_iff]
        constructor
        · rw [List.length_map, buildSheet_data, buildCellMatrix_length]
        · intro b hb
          rw [List.mem_map] at hb
          obtain ⟨orow, ho, hbe⟩ := hb
          rw [buildSheet_data] at ho
          unfold buildCellMatrix at ho
          rw [List.mem_map] at ho
          obtain ⟨rr, _, hoe⟩ := ho
          rw [← hbe, ← hoe, rowLength_some, List.length_map, List.length_range]
      rw [hmap, foldl_max_replicate _ _ _ (by omega), Nat.max_comm]

/-- C4 witness: the amended theorem applied to a one-sheet workbook with
the default 1x1 range. -/
theorem loadSheets_dimensions_witness :
    0 < ([("Sheet1", (⟨none, []⟩ : RawWorksheet))] : List (String × RawWorksheet)).length ∧
    ∃ sheet, (loadSheets [("Sheet1", ⟨none, []⟩)])[0]? = some sheet ∧
      sheet.name = "Sheet1" ∧ sheet.data.length = 1 ∧
      (∀ orow ∈ sheet.data, ∃ row, orow = some row ∧ row.length = 1) ∧
      getMaxRows sheet = 20 ∧ getMaxCols sheet = 10 := by
  refine ⟨by decide, ?_⟩
  obtain ⟨sheet, h1, h2, h3, h4, h5, h6⟩ :=
    (loadSheets_dimensions [("Sheet1", ⟨none, []⟩)]).2 0 (by decide)
  exact ⟨sheet, h1, h2, h3, h4, by simpa using h5, by simpa using h6⟩

end ExcelViewer
